import Mathlib

/-!
Verification of the hostapd ACS (Automatic Channel Selection) engine.

This file is a shallow embedding of `src/unnamed/part_000` (the ACS module).
Machine integers (`u64`) are modelled as `ℕ` with explicit `% 2^64` where the
source wraps; `s8` noise floors are modelled as `ℤ`; the `long double`
interference factor is modelled as `EReal` (the source value `log2(0) = -inf`
is `⊥`).  Stateful C code is modelled by explicit state passing on record
types; driver calls are modelled by an oracle record.
-/

namespace Acs

/-- The modulus of `u64` arithmetic. -/
def U64_MOD : ℕ := 2 ^ 64

/-- Conversion of a C `int` value to `u64` (two's-complement cast). -/
def u64_of_int (z : ℤ) : ℕ := (z % (U64_MOD : ℤ)).toNat

/-- The `while (pow--) result *= base;` loop of `base_to_power`, with `u64`
multiplication wrapping at each step. -/
def base_to_power_loop (base : ℕ) : ℕ → ℕ → ℕ
  | result, 0 => result
  | result, n + 1 => base_to_power_loop base (result * base % U64_MOD) n

/-- `base_to_power` from the source: `result = base; if (pow == 0) return 1;
pow--; while (pow--) result *= base; return result;` in `u64` arithmetic. -/
def base_to_power (base pow : ℕ) : ℕ :=
  if pow = 0 then 1 else base_to_power_loop base base (pow - 1)

/-- One driver survey measurement (`struct freq_survey`): times in
microseconds (`u64`), noise floor in dBm (`s8`). -/
structure Survey where
  channel_time : ℕ
  channel_time_busy : ℕ
  channel_time_tx : ℕ
  nf : ℤ
  deriving Repr, DecidableEq

/-- The `HOSTAPD_CHAN_DISABLED` flag bit.  Modelled from the spec: the bit
constant lives in an external header (`hw_features.h`); only its nonzeroness
matters to this module. -/
def HOSTAPD_CHAN_DISABLED : ℕ := 1

/-- The `WPA_DRIVER_FLAGS_OFFCHANNEL_TX` capability bit.  Modelled from the
spec: the bit constant lives in the external `drivers/driver.h`. -/
def WPA_DRIVER_FLAGS_OFFCHANNEL_TX : ℕ := 1

/-- One entry of `iface->current_mode->channels`
(`struct hostapd_channel_data`), restricted to the fields the ACS module
reads or writes. -/
structure ChannelData where
  chan : ℕ
  freq : ℕ
  flag : ℕ
  survey_list : List Survey
  survey_count : ℕ
  min_nf : ℤ
  survey_interference_factor : EReal

/-- The `struct hostapd_iface` fields the ACS module reads or writes
(configuration knobs from `iface->conf` are inlined). -/
structure HostapdIface where
  channels : List ChannelData
  lowest_nf : ℤ
  chans_surveyed : ℕ
  off_channel_freq_idx : ℕ
  acs_num_completed_surveys : ℕ
  conf_channel : ℕ
  acs_num_req_surveys : ℕ
  acs_roc_duration_ms : ℕ
  drv_flags : ℕ
  scan_cb_set : Bool

/-- `acs_survey_interference_factor`: the `long double` value
`log2((busy - tx) / (time - tx) * base_to_power(2, nf - min_nf))` as an
`EReal`.  A zero log argument gives `-inf` (`⊥`); a zero denominator with a
nonzero numerator gives `+inf` (`⊤`).  The subtractions are `u64`; all claims
assume the data-model invariant `tx ≤ busy ≤ time`, under which truncated
`ℕ` subtraction agrees with the source. -/
noncomputable def acs_survey_interference_factor (survey : Survey) (min_nf : ℤ) : EReal :=
  let num : ℕ := survey.channel_time_busy - survey.channel_time_tx
  let den : ℕ := survey.channel_time - survey.channel_time_tx
  let mult : ℕ := base_to_power 2 (u64_of_int (survey.nf - min_nf))
  if num * mult = 0 then ⊥
  else if den = 0 then ⊤
  else ((Real.logb 2 ((num : ℝ) / (den : ℝ) * (mult : ℝ)) : ℝ) : EReal)

/-- Division of the accumulated `long double` factor by the survey count
(`chan->survey_interference_factor / chan->survey_count`). -/
noncomputable def erealDiv (x : EReal) (n : ℕ) : EReal :=
  if x = ⊥ then ⊥ else if x = ⊤ then ⊤ else ((x.toReal / (n : ℝ) : ℝ) : EReal)

/-- `acs_chan_interference_factor`: adds each survey's factor onto the
channel's (not previously reset) `survey_interference_factor` accumulator,
then divides by `survey_count`. -/
noncomputable def acs_chan_interference_factor (lowest_nf : ℤ) (chan : ChannelData) :
    ChannelData :=
  if chan.survey_list.isEmpty = true ∨ chan.flag &&& HOSTAPD_CHAN_DISABLED ≠ 0 then chan
  else
    { chan with
      survey_interference_factor :=
        erealDiv
          (chan.survey_list.foldl
            (fun acc survey => acc + acs_survey_interference_factor survey lowest_nf)
            chan.survey_interference_factor)
          chan.survey_count }

/-- `acs_usable_chan`. -/
def acs_usable_chan (chan : ChannelData) : Bool :=
  if chan.survey_count = 0 then false
  else if chan.survey_list.isEmpty then false
  else if chan.flag &&& HOSTAPD_CHAN_DISABLED ≠ 0 then false
  else true

/-- The ideal-channel update of `acs_find_ideal_chan`'s loop body:
`if (!ideal_chan) ideal_chan = chan; else if (chan->sif < ideal_chan->sif)
ideal_chan = chan;`. -/
noncomputable def pickBetter (ideal : Option ChannelData) (chan : ChannelData) :
    Option ChannelData :=
  match ideal with
  | none => some chan
  | some ic =>
      if chan.survey_interference_factor < ic.survey_interference_factor then some chan
      else some ic

/-- The loop of `acs_find_ideal_chan`: walks the channel list, updating each
usable channel's factor in place and tracking the running ideal channel.
Returns the updated channel list and the ideal channel. -/
noncomputable def acs_find_ideal_chan_loop (lowest_nf : ℤ) :
    List ChannelData → Option ChannelData → List ChannelData × Option ChannelData
  | [], ideal => ([], ideal)
  | chan :: rest, ideal =>
    if acs_usable_chan chan = true then
      let chan' := acs_chan_interference_factor lowest_nf chan
      let r := acs_find_ideal_chan_loop lowest_nf rest (pickBetter ideal chan')
      (chan' :: r.1, r.2)
    else
      let r := acs_find_ideal_chan_loop lowest_nf rest ideal
      (chan :: r.1, r.2)

/-- `acs_find_ideal_chan`. -/
noncomputable def acs_find_ideal_chan (iface : HostapdIface) :
    HostapdIface × Option ChannelData :=
  let r := acs_find_ideal_chan_loop iface.lowest_nf iface.channels none
  ({ iface with channels := r.1 }, r.2)

/-- `acs_clean_chan_surveys`: frees the survey list (no-op on an already
empty list). -/
def acs_clean_chan_surveys (chan : ChannelData) : ChannelData :=
  if chan.survey_list.isEmpty then chan else { chan with survey_list := [] }

/-- The per-channel body of `acs_cleanup`'s loop. -/
def acs_cleanup_chan (chan : ChannelData) : ChannelData :=
  let chan := if chan.survey_count ≠ 0 then acs_clean_chan_surveys chan else chan
  { chan with survey_list := [], min_nf := 0, survey_count := 0 }

/-- `acs_cleanup`. -/
def acs_cleanup (iface : HostapdIface) : HostapdIface :=
  { iface with
    channels := iface.channels.map acs_cleanup_chan
    chans_surveyed := 0
    off_channel_freq_idx := 0
    acs_num_completed_surveys := 0 }

/-- `acs_fail` (the log line carries no state). -/
def acs_fail (iface : HostapdIface) : HostapdIface := acs_cleanup iface

/-- `enum hostapd_chan_status`. -/
inductive ChanStatus where
  | VALID
  | INVALID
  | ACS
  deriving Repr, DecidableEq

/-- One `hostapd_drv_remain_on_channel` request: the channel record whose
`freq` was passed to the driver, and the requested dwell duration. -/
structure RocRequest where
  chan : ChannelData
  duration : ℕ

/-- The external driver and bring-up collaborators (all outside `src/`),
modelled as an oracle: `hostapd_driver_scan` result, the
`hostapd_drv_remain_on_channel` result per `(freq, duration)`, the
`hostapd_drv_survey_freq` result together with the survey data it deposits
into the interface, and the `hostapd_acs_completed` bring-up result. -/
structure AcsDriver where
  driver_scan : Int
  remain_on_channel : ℕ → ℕ → Int
  survey_freq : ℕ → HostapdIface → Int × HostapdIface
  acs_completed : HostapdIface → ChanStatus

/-- The `for (i = off_channel_freq_idx; ...)` loop of `acs_study_next_freq`,
walking the suffix of the channel list with `i` its absolute index: returns
the index, channel and driver result of the first non-DISABLED channel, or
`none` when none remains. -/
def acs_study_next_freq_go (roc : ℕ → ℕ → Int) (dur : ℕ) :
    ℕ → List ChannelData → Option (ℕ × ChannelData × Int)
  | _, [] => none
  | i, chan :: rest =>
    if chan.flag &&& HOSTAPD_CHAN_DISABLED ≠ 0 then
      acs_study_next_freq_go roc dur (i + 1) rest
    else some (i, chan, roc chan.freq dur)

/-- `acs_study_next_freq`: status, updated interface, and the
remain-on-channel requests issued. -/
def acs_study_next_freq (drv : AcsDriver) (iface : HostapdIface) :
    ChanStatus × HostapdIface × List RocRequest :=
  if iface.off_channel_freq_idx > iface.channels.length then (.INVALID, iface, [])
  else
    match acs_study_next_freq_go drv.remain_on_channel iface.acs_roc_duration_ms
        iface.off_channel_freq_idx (iface.channels.drop iface.off_channel_freq_idx) with
    | some (i, chan, err) =>
        if err < 0 then (.INVALID, iface, [⟨chan, iface.acs_roc_duration_ms⟩])
        else (.ACS, { iface with off_channel_freq_idx := i },
              [⟨chan, iface.acs_roc_duration_ms⟩])
    | none =>
        if iface.chans_surveyed = 0 then (.INVALID, iface, [])
        else (.VALID, iface, [])

/-- How a controller event handler left the engine: still awaiting driver
events, terminated through the success path of `acs_study_complete`
(bring-up returned `VALID`, then `acs_cleanup`), terminated through
`acs_fail`, or refused at `acs_init` (which returns `INVALID` without
calling `acs_fail`). -/
inductive AcsOutcome where
  | pending
  | completedOk
  | failedAcs
  | refusedInit
  deriving Repr, DecidableEq

/-- Result of one controller event handler: new interface state, the
remain-on-channel requests issued while handling it, and the outcome. -/
structure AcsStep where
  ifc : HostapdIface
  log : List RocRequest
  outcome : AcsOutcome

/-- `acs_study_complete`. -/
noncomputable def acs_study_complete (drv : AcsDriver) (iface : HostapdIface) : AcsStep :=
  let iface := { iface with
    acs_num_completed_surveys := iface.acs_num_completed_surveys + 1 }
  if iface.acs_num_completed_surveys < iface.acs_num_req_surveys then
    let iface := { iface with off_channel_freq_idx := 0 }
    let r := acs_study_next_freq drv iface
    match r.1 with
    | .ACS => ⟨r.2.1, r.2.2, .pending⟩
    | _ => ⟨acs_fail r.2.1, r.2.2, .failedAcs⟩
  else if iface.chans_surveyed = 0 then ⟨acs_fail iface, [], .failedAcs⟩
  else
    let r := acs_find_ideal_chan iface
    match r.2 with
    | none => ⟨acs_fail r.1, [], .failedAcs⟩
    | some ideal =>
        let iface := { r.1 with conf_channel := ideal.chan }
        match drv.acs_completed iface with
        | .VALID => ⟨acs_cleanup iface, [], .completedOk⟩
        | _ => ⟨acs_fail iface, [], .failedAcs⟩

/-- `acs_roc_next`. -/
noncomputable def acs_roc_next (drv : AcsDriver) (iface : HostapdIface) (freq : ℕ) :
    AcsStep :=
  let r0 := drv.survey_freq freq iface
  if r0.1 ≠ 0 then ⟨acs_fail r0.2, [], .failedAcs⟩
  else
    let iface := { r0.2 with off_channel_freq_idx := r0.2.off_channel_freq_idx + 1 }
    let r := acs_study_next_freq drv iface
    match r.1 with
    | .VALID =>
        let s := acs_study_complete drv r.2.1
        ⟨s.ifc, r.2.2 ++ s.log, s.outcome⟩
    | .ACS => ⟨r.2.1, r.2.2, .pending⟩
    | .INVALID => ⟨acs_fail r.2.1, r.2.2, .failedAcs⟩

/-- `hostapd_notify_acs_roc`. -/
def hostapd_notify_acs_roc (iface : HostapdIface) (roc_status : Int) : AcsStep :=
  if roc_status ≠ 0 then ⟨acs_fail iface, [], .failedAcs⟩
  else ⟨iface, [], .pending⟩

/-- `hostapd_notify_acs_roc_cancel`. -/
noncomputable def hostapd_notify_acs_roc_cancel (drv : AcsDriver) (iface : HostapdIface)
    (freq : ℕ) (roc_status : Int) : AcsStep :=
  if roc_status ≠ 0 then ⟨acs_fail iface, [], .failedAcs⟩
  else acs_roc_next drv iface freq

/-- `acs_init_scan_complete` (the `scan_cb` continuation). -/
noncomputable def acs_init_scan_complete (drv : AcsDriver) (iface : HostapdIface) :
    AcsStep :=
  let iface := acs_cleanup iface
  let iface := { iface with acs_num_completed_surveys := 0 }
  let r := acs_study_next_freq drv iface
  match r.1 with
  | .ACS => ⟨r.2.1, r.2.2, .pending⟩
  | _ => ⟨acs_fail r.2.1, r.2.2, .failedAcs⟩

/-- `acs_sanity_check`. -/
def acs_sanity_check (iface : HostapdIface) : Int :=
  if iface.chans_surveyed ≠ 0 then -1
  else if iface.drv_flags &&& WPA_DRIVER_FLAGS_OFFCHANNEL_TX = 0 then -1
  else 0

/-- `acs_init_scan`. -/
def acs_init_scan (drv : AcsDriver) (iface : HostapdIface) : Int × HostapdIface :=
  if drv.driver_scan < 0 then (-1, iface)
  else (1, { iface with scan_cb_set := true })

/-- `acs_init`. -/
def acs_init (drv : AcsDriver) (iface : HostapdIface) : ChanStatus × HostapdIface :=
  if acs_sanity_check iface < 0 then (.INVALID, iface)
  else
    let r := acs_init_scan drv iface
    if r.1 < 0 then (.INVALID, r.2)
    else if r.1 = 1 then (.ACS, r.2)
    else (.INVALID, r.2)

/-- Controller events: the `acs_init` entry call, the initial-scan completion
callback, and the two remain-on-channel driver notifications. -/
inductive AcsEvent where
  | initCall
  | scanComplete
  | rocStarted (freq duration : ℕ) (status : Int)
  | rocCancelled (freq duration : ℕ) (status : Int)

/-- One controller transition per event. -/
noncomputable def acsStep (drv : AcsDriver) (iface : HostapdIface) :
    AcsEvent → AcsStep
  | .initCall =>
      let r := acs_init drv iface
      ⟨r.2, [], if r.1 = .ACS then .pending else .refusedInit⟩
  | .scanComplete =>
      if iface.scan_cb_set then acs_init_scan_complete drv iface
      else ⟨iface, [], .pending⟩
  | .rocStarted _ _ status => hostapd_notify_acs_roc iface status
  | .rocCancelled freq _ status => hostapd_notify_acs_roc_cancel drv iface freq status

/-- A run of the controller over a sequence of driver events, accumulating
every remain-on-channel request issued along the way. -/
noncomputable def acsRun (drv : AcsDriver) :
    HostapdIface → List AcsEvent → HostapdIface × List RocRequest
  | iface, [] => (iface, [])
  | iface, e :: es =>
      let s := acsStep drv iface e
      let r := acsRun drv s.ifc es
      (r.1, s.log ++ r.2)

/-- Modelled from the spec: `min_nf` maintenance by the external survey-dump
code — the minimum `nf` across the channel's surveys (0 when there are
none). -/
def minNfOf : List Survey → ℤ
  | [] => 0
  | s :: rest => rest.foldl (fun m t => min m t.nf) s.nf

/-- Modelled from the spec: the external `hostapd_drv_survey_freq` deposit
(§6) — each channel record receives the driver-reported measurements for its
frequency, with `survey_count` and `min_nf` maintained per the data-model
invariants. -/
def installSurveys : List (List Survey) → List ChannelData → List ChannelData
  | _, [] => []
  | [], chans => chans
  | data :: rest, chan :: chans =>
      { chan with
        survey_list := data
        survey_count := data.length
        min_nf := minNfOf data } :: installSurveys rest chans

/-- One ACS decision pass over fixed driver-reported survey data, as the
composite named by the determinism property: the `acs_init_scan_complete`
cleanup, the driver survey deposit (modelled from the spec), selection via
`acs_find_ideal_chan` (which accumulates through
`acs_chan_interference_factor`), the `conf->channel` write, and the terminal
cleanup (`acs_cleanup` on success, `acs_fail` when no channel was found). -/
noncomputable def acs_run_once (data : List (List Survey)) (iface : HostapdIface) :
    HostapdIface :=
  let i1 := acs_cleanup iface
  let i2 := { i1 with channels := installSurveys data i1.channels }
  let r := acs_find_ideal_chan i2
  match r.2 with
  | some ideal => acs_cleanup { r.1 with conf_channel := ideal.chan }
  | none => acs_fail r.1

/-- The terminal-state invariant: every channel's survey list is empty with
`min_nf` and `survey_count` zero, and the interface counters and cursor are
zero. -/
def cleanState (iface : HostapdIface) : Prop :=
  (∀ ch ∈ iface.channels, ch.survey_list = [] ∧ ch.min_nf = 0 ∧ ch.survey_count = 0)
  ∧ iface.chans_surveyed = 0
  ∧ iface.off_channel_freq_idx = 0
  ∧ iface.acs_num_completed_surveys = 0

/-- The spec's §4.1 scoring formula, written from the spec's words for
comparison with the source's `acs_survey_interference_factor`:
`log2((busy - tx) / (time - tx) * 2^(nf - nf_ref))` with the power of two
exact (an integer power, no 64-bit wrap), as an `EReal` with `log2(0) = -inf`
and division of a positive numerator by zero giving `+inf`. -/
noncomputable def spec_survey_interference_factor (survey : Survey) (nf_ref : ℤ) : EReal :=
  let num : ℕ := survey.channel_time_busy - survey.channel_time_tx
  let den : ℕ := survey.channel_time - survey.channel_time_tx
  if num = 0 then ⊥
  else if den = 0 then ⊤
  else ((Real.logb 2 ((num : ℝ) / (den : ℝ) * (2 : ℝ) ^ (survey.nf - nf_ref)) : ℝ) : EReal)

section Lemmas

/-- The wrapping multiply loop computes multiplication mod `2^64`. -/
lemma base_to_power_loop_eq (base : ℕ) (n r : ℕ) (hr : r < U64_MOD) :
    base_to_power_loop base r n = r * base ^ n % U64_MOD := by
  induction n generalizing r with
  | zero => simp [base_to_power_loop, Nat.mod_eq_of_lt hr]
  | succ n ih =>
      rw [base_to_power_loop, ih _ (Nat.mod_lt _ (by norm_num [U64_MOD]))]
      rw [Nat.mod_mul_mod]
      congr 1
      ring

/-- `base_to_power` is exponentiation mod `2^64` for a reduced base. -/
lemma base_to_power_eq (base pow : ℕ) (hbase : base < U64_MOD) :
    base_to_power base pow = base ^ pow % U64_MOD := by
  cases pow with
  | zero => simp [base_to_power, U64_MOD]
  | succ n =>
      rw [base_to_power]
      simp only [Nat.succ_ne_zero, if_false, Nat.succ_sub_one]
      rw [base_to_power_loop_eq base n base hbase]
      congr 1
      rw [pow_succ]
      ring

/-- Cleanup resets the three per-channel survey fields. -/
lemma acs_cleanup_chan_fields (ch : ChannelData) :
    (acs_cleanup_chan ch).survey_list = [] ∧ (acs_cleanup_chan ch).min_nf = 0 ∧
      (acs_cleanup_chan ch).survey_count = 0 := by
  simp [acs_cleanup_chan]

/-- Cleanup leaves the identifying and scoring fields of a channel alone. -/
lemma acs_cleanup_chan_frame (ch : ChannelData) :
    (acs_cleanup_chan ch).chan = ch.chan ∧ (acs_cleanup_chan ch).freq = ch.freq ∧
      (acs_cleanup_chan ch).flag = ch.flag ∧
      (acs_cleanup_chan ch).survey_interference_factor = ch.survey_interference_factor := by
  cases ch
  simp only [acs_cleanup_chan, acs_clean_chan_surveys]
  split_ifs <;> simp

/-- The per-channel cleanup is idempotent. -/
lemma acs_cleanup_chan_idem (ch : ChannelData) :
    acs_cleanup_chan (acs_cleanup_chan ch) = acs_cleanup_chan ch := by
  cases ch
  simp only [acs_cleanup_chan, acs_clean_chan_surveys]
  split_ifs <;> simp

/-- A cleaned interface satisfies the terminal-state invariant. -/
lemma cleanState_cleanup (iface : HostapdIface) : cleanState (acs_cleanup iface) := by
  refine ⟨?_, rfl, rfl, rfl⟩
  intro ch hch
  simp only [acs_cleanup, List.mem_map] at hch
  obtain ⟨c, _, rfl⟩ := hch
  exact acs_cleanup_chan_fields c

/-- `acs_cleanup` is idempotent. -/
lemma acs_cleanup_idem (iface : HostapdIface) :
    acs_cleanup (acs_cleanup iface) = acs_cleanup iface := by
  simp [acs_cleanup, List.map_map, Function.comp_def, acs_cleanup_chan_idem]

end Lemmas

section ClaimC10

/-- Claim C10: for every 64-bit unsigned `base` and exponent `pow`,
`base_to_power(base, pow)` equals `base ^ pow` modulo `2^64`; in particular
it returns 1 when `pow = 0` and `base` when `pow = 1`. -/
theorem base_to_power_pow_mod (base pow : ℕ) (hbase : base < 2 ^ 64)
    (_hpow : pow < 2 ^ 64) :
    base_to_power base pow = base ^ pow % 2 ^ 64
    ∧ base_to_power base 0 = 1 ∧ base_to_power base 1 = base := by
  refine ⟨base_to_power_eq base pow hbase, by simp [base_to_power], ?_⟩
  rw [base_to_power_eq base 1 hbase, pow_one]
  exact Nat.mod_eq_of_lt hbase

/-- Witness for claim C10 at `base = 3`, `pow = 5`. -/
theorem base_to_power_pow_mod_witness :
    (3 < 2 ^ 64 ∧ 5 < 2 ^ 64)
    ∧ base_to_power 3 5 = 3 ^ 5 % 2 ^ 64
    ∧ base_to_power 3 0 = 1 ∧ base_to_power 3 1 = 3 :=
  ⟨⟨by norm_num, by norm_num⟩, base_to_power_pow_mod 3 5 (by norm_num) (by norm_num)⟩

end ClaimC10

section ClaimC9

/-- Claim C9: `acs_cleanup` modifies only each channel's `survey_list`,
`min_nf` and `survey_count`, plus the interface fields `chans_surveyed`,
`off_channel_freq_idx` and `acs_num_completed_surveys`; in particular each
channel's `survey_interference_factor`, the interface's `lowest_nf`, and
`conf.channel` are left unchanged, for every interface state. -/
theorem acs_cleanup_frame (iface : HostapdIface) :
    ((acs_cleanup iface).channels.map
        (fun ch => (ch.chan, ch.freq, ch.flag, ch.survey_interference_factor))
      = iface.channels.map
        (fun ch => (ch.chan, ch.freq, ch.flag, ch.survey_interference_factor)))
    ∧ (acs_cleanup iface).lowest_nf = iface.lowest_nf
    ∧ (acs_cleanup iface).conf_channel = iface.conf_channel
    ∧ (acs_cleanup iface).acs_num_req_surveys = iface.acs_num_req_surveys
    ∧ (acs_cleanup iface).acs_roc_duration_ms = iface.acs_roc_duration_ms
    ∧ (acs_cleanup iface).drv_flags = iface.drv_flags
    ∧ (acs_cleanup iface).scan_cb_set = iface.scan_cb_set
    ∧ (acs_cleanup iface).chans_surveyed = 0
    ∧ (acs_cleanup iface).off_channel_freq_idx = 0
    ∧ (acs_cleanup iface).acs_num_completed_surveys = 0 := by
  refine ⟨?_, rfl, rfl, rfl, rfl, rfl, rfl, rfl, rfl, rfl⟩
  simp only [acs_cleanup, List.map_map]
  apply List.map_congr_left
  intro ch _
  obtain ⟨h1, h2, h3, h4⟩ := acs_cleanup_chan_frame ch
  simp [h1, h2, h3, h4]

end ClaimC9

section ClaimC8

/-- Every non-pending exit of `acs_study_complete` leaves a state produced by
`acs_cleanup` (the success path and every path through `acs_fail`). -/
lemma acs_study_complete_shape (drv : AcsDriver) (iface : HostapdIface) :
    (acs_study_complete drv iface).outcome = .pending ∨
      ∃ j, (acs_study_complete drv iface).ifc = acs_cleanup j := by
  unfold acs_study_complete acs_fail
  dsimp only
  repeat' split
  all_goals first
    | exact Or.inl rfl
    | exact Or.inr ⟨_, rfl⟩

/-- Every non-pending exit of `acs_roc_next` leaves a state produced by
`acs_cleanup`. -/
lemma acs_roc_next_shape (drv : AcsDriver) (iface : HostapdIface) (freq : ℕ) :
    (acs_roc_next drv iface freq).outcome = .pending ∨
      ∃ j, (acs_roc_next drv iface freq).ifc = acs_cleanup j := by
  unfold acs_roc_next acs_fail
  dsimp only
  repeat' split
  all_goals first
    | exact Or.inl rfl
    | exact Or.inr ⟨_, rfl⟩
    | exact acs_study_complete_shape drv _

/-- Every non-pending exit of `acs_init_scan_complete` leaves a state
produced by `acs_cleanup`. -/
lemma acs_init_scan_complete_shape (drv : AcsDriver) (iface : HostapdIface) :
    (acs_init_scan_complete drv iface).outcome = .pending ∨
      ∃ j, (acs_init_scan_complete drv iface).ifc = acs_cleanup j := by
  unfold acs_init_scan_complete acs_fail
  dsimp only
  repeat' split
  all_goals first
    | exact Or.inl rfl
    | exact Or.inr ⟨_, rfl⟩

/-- Every controller transition either stays pending, is refused at
`acs_init`, or leaves a state produced by `acs_cleanup`. -/
lemma acsStep_shape (drv : AcsDriver) (iface : HostapdIface) (e : AcsEvent) :
    (acsStep drv iface e).outcome = .pending ∨
      (acsStep drv iface e).outcome = .refusedInit ∨
      ∃ j, (acsStep drv iface e).ifc = acs_cleanup j := by
  cases e with
  | initCall =>
      simp only [acsStep]
      split
      · exact Or.inl rfl
      · exact Or.inr (Or.inl rfl)
  | scanComplete =>
      simp only [acsStep]
      split
      · rcases acs_init_scan_complete_shape drv iface with h | h
        · exact Or.inl h
        · exact Or.inr (Or.inr h)
      · exact Or.inl rfl
  | rocStarted freq dur status =>
      simp only [acsStep]
      unfold hostapd_notify_acs_roc acs_fail
      split
      · exact Or.inr (Or.inr ⟨_, rfl⟩)
      · exact Or.inl rfl
  | rocCancelled freq dur status =>
      simp only [acsStep]
      unfold hostapd_notify_acs_roc_cancel acs_fail
      split
      · exact Or.inr (Or.inr ⟨_, rfl⟩)
      · rcases acs_roc_next_shape drv iface freq with h | h
        · exact Or.inl h
        · exact Or.inr (Or.inr h)

/-- Claim C8: after every terminal transition of the controller — the
success path (bring-up returns `VALID`) and every failure path through
`acs_fail` — every channel's survey list is empty with `min_nf` and
`survey_count` zero, and `chans_surveyed`, `off_channel_freq_idx` and
`acs_num_completed_surveys` are zero; applying cleanup once more leaves the
terminal state unchanged (cleanup is idempotent). -/
theorem acs_terminal_state_clean (drv : AcsDriver) (iface : HostapdIface) (e : AcsEvent)
    (h : (acsStep drv iface e).outcome = .failedAcs ∨
      (acsStep drv iface e).outcome = .completedOk) :
    cleanState (acsStep drv iface e).ifc ∧
      acs_cleanup (acsStep drv iface e).ifc = (acsStep drv iface e).ifc := by
  rcases acsStep_shape drv iface e with hp | hp | ⟨j, hj⟩
  · rcases h with h | h <;> rw [hp] at h <;> cases h
  · rcases h with h | h <;> rw [hp] at h <;> cases h
  · rw [hj]
    exact ⟨cleanState_cleanup j, acs_cleanup_idem j⟩

/-- A fixed sample driver oracle: the initial scan and every
remain-on-channel request succeed, surveys deposit nothing, and bring-up
accepts. -/
def sampleDrv : AcsDriver where
  driver_scan := 0
  remain_on_channel := fun _ _ => 0
  survey_freq := fun _ iface => (0, iface)
  acs_completed := fun _ => .VALID

/-- A single enabled channel 1 at 2412 MHz with no surveys yet. -/
def sampleChan1 : ChannelData where
  chan := 1
  freq := 2412
  flag := 0
  survey_list := []
  survey_count := 0
  min_nf := 0
  survey_interference_factor := 0

/-- A fresh single-channel interface. -/
def sampleIface : HostapdIface where
  channels := [sampleChan1]
  lowest_nf := -95
  chans_surveyed := 0
  off_channel_freq_idx := 0
  acs_num_completed_surveys := 0
  conf_channel := 0
  acs_num_req_surveys := 1
  acs_roc_duration_ms := 100
  drv_flags := 1
  scan_cb_set := true

/-- Witness for claim C8: a remain-on-channel notification with nonzero
status is a terminal transition through `acs_fail`. -/
theorem acs_terminal_state_clean_witness :
    ((acsStep sampleDrv sampleIface (.rocStarted 2412 100 1)).outcome = .failedAcs ∨
      (acsStep sampleDrv sampleIface (.rocStarted 2412 100 1)).outcome = .completedOk)
    ∧ cleanState (acsStep sampleDrv sampleIface (.rocStarted 2412 100 1)).ifc
    ∧ acs_cleanup (acsStep sampleDrv sampleIface (.rocStarted 2412 100 1)).ifc
        = (acsStep sampleDrv sampleIface (.rocStarted 2412 100 1)).ifc :=
  ⟨Or.inl (by simp [acsStep, hostapd_notify_acs_roc]),
   acs_terminal_state_clean sampleDrv sampleIface (.rocStarted 2412 100 1)
     (Or.inl (by simp [acsStep, hostapd_notify_acs_roc]))⟩

end ClaimC8

section ClaimC5

/-- An interface that is fresh except for a stale nonzero `chans_surveyed`
count; the driver capability is present and the scan would be accepted. -/
def staleIface : HostapdIface := { sampleIface with chans_surveyed := 1 }

/-- Counterexample to claim C5 as stated: with the off-channel TX capability
present and the initial scan accepted, `acs_init` still returns `INVALID`
when `chans_surveyed` is nonzero, so `INVALID` is not returned exactly when
the capability is missing or the scan is refused. -/
theorem acs_init_invalid_on_stale_chans_surveyed :
    ¬ ((acs_init sampleDrv staleIface).1 = .INVALID ↔
        (staleIface.drv_flags &&& WPA_DRIVER_FLAGS_OFFCHANNEL_TX = 0 ∨
          sampleDrv.driver_scan < 0)) := by
  simp [acs_init, acs_sanity_check, acs_init_scan, staleIface, sampleIface, sampleDrv,
    WPA_DRIVER_FLAGS_OFFCHANNEL_TX]

/-- Claim C5, amended: `acs_init` returns `INVALID` exactly when
`chans_surveyed` is nonzero at entry, the driver lacks the off-channel TX
capability, or the initial scan request is refused; it returns `ACS` in
every other case, and never returns `VALID`. -/
theorem acs_init_status_characterization (drv : AcsDriver) (iface : HostapdIface) :
    ((acs_init drv iface).1 = .INVALID ↔
      (iface.chans_surveyed ≠ 0
        ∨ iface.drv_flags &&& WPA_DRIVER_FLAGS_OFFCHANNEL_TX = 0
        ∨ drv.driver_scan < 0))
    ∧ ((acs_init drv iface).1 = .ACS ↔
      (iface.chans_surveyed = 0
        ∧ iface.drv_flags &&& WPA_DRIVER_FLAGS_OFFCHANNEL_TX ≠ 0
        ∧ ¬ drv.driver_scan < 0))
    ∧ (acs_init drv iface).1 ≠ .VALID := by
  unfold acs_init acs_sanity_check acs_init_scan
  dsimp only
  split_ifs <;> simp_all

end ClaimC5

section ClaimC4

/-- If every channel of the suffix is DISABLED, the study loop finds
nothing. -/
lemma acs_study_next_freq_go_none (roc : ℕ → ℕ → Int) (dur : ℕ) :
    ∀ (l : List ChannelData) (i : ℕ),
      (∀ ch ∈ l, ch.flag &&& HOSTAPD_CHAN_DISABLED ≠ 0) →
      acs_study_next_freq_go roc dur i l = none := by
  intro l
  induction l with
  | nil => intro i _; rfl
  | cons ch rest ih =>
      intro i h
      have h0 := h ch (List.mem_cons_self ch rest)
      show (if ch.flag &&& HOSTAPD_CHAN_DISABLED ≠ 0 then
          acs_study_next_freq_go roc dur (i + 1) rest
        else some (i, ch, roc ch.freq dur)) = none
      rw [if_pos h0]
      exact ih (i + 1) fun c hc => h c (List.mem_cons_of_mem ch hc)

/-- If position `k` holds the first non-DISABLED channel of the suffix, the
study loop stops there, with the absolute index shifted by the start
index. -/
lemma acs_study_next_freq_go_finds (roc : ℕ → ℕ → Int) (dur : ℕ) :
    ∀ (l : List ChannelData) (i k : ℕ) (hk : k < l.length),
      (∀ (j : ℕ) (hj : j < k),
        (l.get ⟨j, Nat.lt_trans hj hk⟩).flag &&& HOSTAPD_CHAN_DISABLED ≠ 0) →
      (l.get ⟨k, hk⟩).flag &&& HOSTAPD_CHAN_DISABLED = 0 →
      acs_study_next_freq_go roc dur i l =
        some (i + k, l.get ⟨k, hk⟩, roc (l.get ⟨k, hk⟩).freq dur) := by
  intro l
  induction l with
  | nil => intro i k hk; exact absurd hk (by simp)
  | cons ch rest ih =>
      intro i k hk hbefore hk0
      cases k with
      | zero =>
          have hch : ch.flag &&& HOSTAPD_CHAN_DISABLED = 0 := hk0
          show (if ch.flag &&& HOSTAPD_CHAN_DISABLED ≠ 0 then
              acs_study_next_freq_go roc dur (i + 1) rest
            else some (i, ch, roc ch.freq dur)) = _
          rw [if_neg (not_not_intro hch)]
          simp
      | succ k =>
          have h0 : ch.flag &&& HOSTAPD_CHAN_DISABLED ≠ 0 := hbefore 0 (Nat.succ_pos k)
          show (if ch.flag &&& HOSTAPD_CHAN_DISABLED ≠ 0 then
              acs_study_next_freq_go roc dur (i + 1) rest
            else some (i, ch, roc ch.freq dur)) = _
          rw [if_pos h0]
          have hk' : k < rest.length := Nat.lt_of_succ_lt_succ (by simpa using hk)
          rw [ih (i + 1) k hk'
            (fun j hj => hbefore (j + 1) (Nat.succ_lt_succ hj)) hk0]
          have : i + 1 + k = i + (k + 1) := by omega
          rw [this]
          rfl

/-- Claim C4: `acs_study_next_freq`, starting from the cursor
`off_channel_freq_idx`: a cursor beyond the channel count returns `INVALID`;
otherwise the first non-DISABLED channel at or after the cursor receives a
remain-on-channel request of `acs_roc_duration_ms` on its frequency (here
with the driver accepting it), the cursor is left at that channel's index
and the status is `ACS`; when no non-DISABLED channel remains the status is
`VALID` if `chans_surveyed > 0` and `INVALID` otherwise. -/
theorem acs_study_next_freq_spec (drv : AcsDriver) (iface : HostapdIface) :
    (iface.off_channel_freq_idx > iface.channels.length →
      acs_study_next_freq drv iface = (.INVALID, iface, []))
    ∧ (∀ (i : ℕ) (hi : i < iface.channels.length),
        iface.off_channel_freq_idx ≤ i →
        (iface.channels.get ⟨i, hi⟩).flag &&& HOSTAPD_CHAN_DISABLED = 0 →
        (∀ (j : ℕ) (hj : j < iface.channels.length),
          iface.off_channel_freq_idx ≤ j → j < i →
          (iface.channels.get ⟨j, hj⟩).flag &&& HOSTAPD_CHAN_DISABLED ≠ 0) →
        ¬ drv.remain_on_channel (iface.channels.get ⟨i, hi⟩).freq
            iface.acs_roc_duration_ms < 0 →
        acs_study_next_freq drv iface =
          (.ACS, { iface with off_channel_freq_idx := i },
            [⟨iface.channels.get ⟨i, hi⟩, iface.acs_roc_duration_ms⟩]))
    ∧ (iface.off_channel_freq_idx ≤ iface.channels.length →
        (∀ (j : ℕ) (hj : j < iface.channels.length),
          iface.off_channel_freq_idx ≤ j →
          (iface.channels.get ⟨j, hj⟩).flag &&& HOSTAPD_CHAN_DISABLED ≠ 0) →
        acs_study_next_freq drv iface =
          ((if iface.chans_surveyed = 0 then ChanStatus.INVALID else .VALID),
            iface, [])) := by
  refine ⟨?_, ?_, ?_⟩
  · intro hgt
    unfold acs_study_next_freq
    rw [if_pos hgt]
  · intro i hi hle hnd hbefore hroc
    have hdroplen : (iface.channels.drop iface.off_channel_freq_idx).length =
        iface.channels.length - iface.off_channel_freq_idx := List.length_drop _ _
    have hgetdrop : ∀ (k : ℕ)
        (hk : k < (iface.channels.drop iface.off_channel_freq_idx).length),
        (iface.channels.drop iface.off_channel_freq_idx).get ⟨k, hk⟩ =
          iface.channels.get ⟨iface.off_channel_freq_idx + k, by omega⟩ := by
      intro k hk
      simp [List.get_eq_getElem, List.getElem_drop]
    unfold acs_study_next_freq
    rw [if_neg (by omega)]
    have hfind := acs_study_next_freq_go_finds drv.remain_on_channel
      iface.acs_roc_duration_ms (iface.channels.drop iface.off_channel_freq_idx)
      iface.off_channel_freq_idx (i - iface.off_channel_freq_idx) (by omega)
      (fun j hj => by
        rw [hgetdrop j (by omega)]
        exact hbefore (iface.off_channel_freq_idx + j) (by omega) (by omega) (by omega))
      (by
        rw [hgetdrop (i - iface.off_channel_freq_idx) (by omega)]
        have : iface.off_channel_freq_idx + (i - iface.off_channel_freq_idx) = i := by
          omega
        simp only [this]
        exact hnd)
    rw [hgetdrop (i - iface.off_channel_freq_idx) (by omega)] at hfind
    have hidx : iface.off_channel_freq_idx + (i - iface.off_channel_freq_idx) = i := by
      omega
    simp only [hidx] at hfind
    rw [hfind]
    dsimp only
    rw [if_neg hroc]
  · intro hle hall
    have hlen : (iface.channels.drop iface.off_channel_freq_idx).length =
        iface.channels.length - iface.off_channel_freq_idx := List.length_drop _ _
    unfold acs_study_next_freq
    rw [if_neg (by omega)]
    rw [acs_study_next_freq_go_none drv.remain_on_channel iface.acs_roc_duration_ms _ _
      (fun ch hch => by
        obtain ⟨k, hk, rfl⟩ := List.mem_iff_getElem.mp hch
        simp only [List.getElem_drop]
        have hb : iface.off_channel_freq_idx + k < iface.channels.length := by omega
        have := hall (iface.off_channel_freq_idx + k) hb (by omega)
        simpa [List.get_eq_getElem] using this)]
    split_ifs with h <;> simp [h]

/-- A channel list with a DISABLED channel 1 followed by an enabled
channel 6. -/
def sampleIfaceDis : HostapdIface :=
  { sampleIface with
    channels :=
      [{ sampleChan1 with flag := 1 },
       { sampleChan1 with chan := 6, freq := 2437 }] }

/-- Witness for claim C4: from cursor 0 over [DISABLED ch1, enabled ch6]
with an accepting driver, the request goes to ch6 at index 1 and the status
is `ACS`. -/
theorem acs_study_next_freq_spec_witness :
    (1 < sampleIfaceDis.channels.length)
    ∧ acs_study_next_freq sampleDrv sampleIfaceDis =
        (.ACS, { sampleIfaceDis with off_channel_freq_idx := 1 },
          [⟨sampleIfaceDis.channels.get ⟨1, by simp [sampleIfaceDis]⟩,
            sampleIfaceDis.acs_roc_duration_ms⟩]) :=
  ⟨by simp [sampleIfaceDis, sampleIface],
   (acs_study_next_freq_spec sampleDrv sampleIfaceDis).2.1 1
     (by simp [sampleIfaceDis, sampleIface])
     (by simp [sampleIfaceDis, sampleIface])
     (by
       simp only [sampleIfaceDis, sampleIface, sampleChan1]
       decide)
     (by
       intro j hj h0 h1
       interval_cases j
       · simp [sampleIfaceDis, sampleIface, sampleChan1, HOSTAPD_CHAN_DISABLED]
     )
     (by simp [sampleDrv])⟩

end ClaimC4

section FactorLemmas

/-- Within the `u64` range the int-to-`u64` cast is `toNat`. -/
lemma u64_of_int_small (z : ℤ) (h0 : 0 ≤ z) (h1 : z < 2 ^ 64) :
    u64_of_int z = z.toNat := by
  unfold u64_of_int
  rw [Int.emod_eq_of_lt h0 (by norm_num [U64_MOD]; omega)]

/-- For exponents up to 63 the wrapping power of two is exact. -/
lemma base_to_power_two_small (n : ℕ) (h : n ≤ 63) :
    base_to_power 2 n = 2 ^ n := by
  rw [base_to_power_eq 2 n (by norm_num [U64_MOD])]
  apply Nat.mod_eq_of_lt
  calc 2 ^ n ≤ 2 ^ 63 := Nat.pow_le_pow_right (by norm_num) h
    _ < U64_MOD := by norm_num [U64_MOD]

/-- Closed form of the per-measurement factor when the noise-floor offset
does not wrap the 64-bit power of two. -/
lemma acs_survey_interference_factor_eval (s : Survey) (nf_ref : ℤ)
    (hd0 : nf_ref ≤ s.nf) (hd63 : s.nf - nf_ref ≤ 63) :
    acs_survey_interference_factor s nf_ref =
      if s.channel_time_busy - s.channel_time_tx = 0 then ⊥
      else if s.channel_time - s.channel_time_tx = 0 then ⊤
      else ((Real.logb 2 (((s.channel_time_busy - s.channel_time_tx : ℕ) : ℝ) /
          ((s.channel_time - s.channel_time_tx : ℕ) : ℝ) *
          (2 : ℝ) ^ ((s.nf - nf_ref).toNat)) : ℝ) : EReal) := by
  have hu : u64_of_int (s.nf - nf_ref) = (s.nf - nf_ref).toNat :=
    u64_of_int_small _ (by omega) (by omega)
  unfold acs_survey_interference_factor
  dsimp only
  rw [hu, base_to_power_two_small _ (by omega)]
  by_cases hnum : s.channel_time_busy - s.channel_time_tx = 0
  · rw [if_pos (by simp [hnum]), if_pos hnum]
  · rw [if_neg (by simp [hnum, pow_ne_zero]), if_neg hnum]
    by_cases hden : s.channel_time - s.channel_time_tx = 0
    · rw [if_pos hden, if_pos hden]
    · rw [if_neg hden, if_neg hden]
      norm_num

end FactorLemmas

section ClaimC3

/-- The survey of the C3 counterexample: `time = 2`, `busy = 1`, `tx = 0`,
`nf = 127`; with `nf_ref = -128` the exponent `nf - nf_ref = 255` wraps
`base_to_power(2, 255)` to 0 in `u64`. -/
def wrapSurvey : Survey := ⟨2, 1, 0, 127⟩

/-- Counterexample to claim C3 as stated: at `wrapSurvey` with
`nf_ref = -128` (both valid `s8` values satisfying the data-model
invariants and `nf_ref ≤ nf`), the code's factor is `-inf` (the 64-bit
power-of-two term wrapped to zero) while the spec's formula gives a finite
value, so the claimed equality fails. -/
theorem acs_survey_interference_factor_spec_mismatch :
    (wrapSurvey.channel_time_tx ≤ wrapSurvey.channel_time_busy
      ∧ wrapSurvey.channel_time_busy ≤ wrapSurvey.channel_time
      ∧ wrapSurvey.channel_time_tx < wrapSurvey.channel_time
      ∧ (-128 : ℤ) ≤ wrapSurvey.nf)
    ∧ acs_survey_interference_factor wrapSurvey (-128) ≠
        spec_survey_interference_factor wrapSurvey (-128) := by
  constructor
  · refine ⟨by norm_num [wrapSurvey], by norm_num [wrapSurvey], by norm_num [wrapSurvey],
      by norm_num [wrapSurvey]⟩
  · have hu : u64_of_int (wrapSurvey.nf - (-128)) = 255 := by
      unfold u64_of_int wrapSurvey
      decide
    have hb : base_to_power 2 255 = 0 := by
      rw [base_to_power_eq 2 255 (by norm_num [U64_MOD])]
      norm_num [U64_MOD]
    unfold acs_survey_interference_factor spec_survey_interference_factor
    dsimp only
    rw [hu, hb]
    norm_num [wrapSurvey]

/-- Claim C3, amended: for every survey satisfying the data-model invariants
and every reference noise floor with `nf_ref ≤ nf` **and
`nf - nf_ref ≤ 63`** (so the 64-bit power of two does not wrap),
`acs_survey_interference_factor` equals the spec's
`log2((busy - tx) / (time - tx) * 2^(nf - nf_ref))` with the exponential
term an exact integer power of two. -/
theorem acs_survey_interference_factor_matches_spec_no_wrap (s : Survey) (nf_ref : ℤ)
    (_h1 : s.channel_time_tx ≤ s.channel_time_busy)
    (_h2 : s.channel_time_busy ≤ s.channel_time)
    (h3 : s.channel_time_tx < s.channel_time)
    (h4 : nf_ref ≤ s.nf) (h5 : s.nf - nf_ref ≤ 63) :
    acs_survey_interference_factor s nf_ref = spec_survey_interference_factor s nf_ref := by
  rw [acs_survey_interference_factor_eval s nf_ref h4 h5]
  unfold spec_survey_interference_factor
  dsimp only
  by_cases hnum : s.channel_time_busy - s.channel_time_tx = 0
  · rw [if_pos hnum, if_pos hnum]
  · rw [if_neg hnum, if_neg hnum]
    have hden : s.channel_time - s.channel_time_tx ≠ 0 := by omega
    rw [if_neg hden, if_neg hden]
    have hz : ((2 : ℝ) ^ ((s.nf - nf_ref).toNat) : ℝ) = (2 : ℝ) ^ (s.nf - nf_ref) := by
      rw [← zpow_natCast, Int.toNat_of_nonneg (by omega)]
    rw [hz]

/-- Witness for the amended claim C3 at `time = 2`, `busy = 2`, `tx = 0`,
`nf = -90`, `nf_ref = -95`. -/
theorem acs_survey_interference_factor_matches_spec_no_wrap_witness :
    ((0 : ℕ) ≤ 2 ∧ (2 : ℕ) ≤ 2 ∧ (0 : ℕ) < 2 ∧ (-95 : ℤ) ≤ -90 ∧ (-90 : ℤ) - (-95) ≤ 63)
    ∧ acs_survey_interference_factor ⟨2, 2, 0, -90⟩ (-95) =
        spec_survey_interference_factor ⟨2, 2, 0, -90⟩ (-95) :=
  ⟨⟨by norm_num, by norm_num, by norm_num, by norm_num, by norm_num⟩,
   acs_survey_interference_factor_matches_spec_no_wrap ⟨2, 2, 0, -90⟩ (-95)
     (by norm_num) (by norm_num) (by norm_num) (by norm_num) (by norm_num)⟩

end ClaimC3

section ClaimC6

/-- Counterexample to claim C6 as stated: with `busy = tx = 0` (allowed by
the data-model invariants) the factor is `-inf` for every noise floor, so it
is not strictly monotone increasing in `nf`. -/
theorem acs_survey_interference_factor_not_strict_mono_nf :
    ((0 : ℕ) ≤ 0 ∧ (0 : ℕ) ≤ 1000 ∧ (0 : ℕ) < 1000 ∧ (-95 : ℤ) ≤ -95 ∧ (-95 : ℤ) < -90)
    ∧ ¬ (acs_survey_interference_factor ⟨1000, 0, 0, -95⟩ (-95) <
          acs_survey_interference_factor ⟨1000, 0, 0, -90⟩ (-95)) := by
  constructor
  · norm_num
  · have e1 : acs_survey_interference_factor ⟨1000, 0, 0, -95⟩ (-95) = ⊥ := by
      unfold acs_survey_interference_factor
      norm_num
    have e2 : acs_survey_interference_factor ⟨1000, 0, 0, -90⟩ (-95) = ⊥ := by
      unfold acs_survey_interference_factor
      norm_num
    rw [e1, e2]
    exact lt_irrefl ⊥

/-- Claim C6, amended: the per-measurement factor is strictly monotone
increasing in `channel_time_busy` (other inputs fixed, under the data-model
invariants) and strictly monotone increasing in `nf` (time fields and
reference fixed), provided additionally that the noise-floor offset stays in
`[0, 63]` so the 64-bit power of two does not wrap, and — for the `nf`
direction — that `channel_time_busy > channel_time_tx` (when they are equal
the factor is `-inf` for every `nf`). -/
theorem acs_survey_interference_factor_strict_mono :
    (∀ (time busy busy' tx : ℕ) (nf nf_ref : ℤ),
      tx ≤ busy → busy < busy' → busy' ≤ time →
      nf_ref ≤ nf → nf - nf_ref ≤ 63 →
      acs_survey_interference_factor ⟨time, busy, tx, nf⟩ nf_ref <
        acs_survey_interference_factor ⟨time, busy', tx, nf⟩ nf_ref)
    ∧ (∀ (time busy tx : ℕ) (nf nf' nf_ref : ℤ),
      tx < busy → busy ≤ time →
      nf_ref ≤ nf → nf < nf' → nf' - nf_ref ≤ 63 →
      acs_survey_interference_factor ⟨time, busy, tx, nf⟩ nf_ref <
        acs_survey_interference_factor ⟨time, busy, tx, nf'⟩ nf_ref) := by
  constructor
  · intro time busy busy' tx nf nf_ref hb1 hb2 hb3 hn1 hn2
    rw [acs_survey_interference_factor_eval _ _ hn1 hn2,
        acs_survey_interference_factor_eval _ _ hn1 hn2]
    dsimp only
    have hden : time - tx ≠ 0 := by omega
    have hnum' : busy' - tx ≠ 0 := by omega
    rw [if_neg hnum']
    by_cases hnum : busy - tx = 0
    · rw [if_pos hnum, if_neg hden]
      exact EReal.bot_lt_coe _
    · rw [if_neg hnum, if_neg hden, if_neg hden, EReal.coe_lt_coe_iff]
      have hnpos : (0 : ℝ) < ((busy - tx : ℕ) : ℝ) := by
        exact_mod_cast Nat.pos_of_ne_zero hnum
      have hdpos : (0 : ℝ) < ((time - tx : ℕ) : ℝ) := by
        exact_mod_cast Nat.pos_of_ne_zero hden
      have hppos : (0 : ℝ) < (2 : ℝ) ^ ((nf - nf_ref).toNat) := by positivity
      apply Real.logb_lt_logb (by norm_num)
      · exact mul_pos (div_pos hnpos hdpos) hppos
      · apply mul_lt_mul_of_pos_right _ hppos
        rw [div_lt_div_iff_of_pos_right hdpos]
        exact_mod_cast by omega
  · intro time busy tx nf nf' nf_ref hb1 hb2 hn1 hn2 hn3
    have hn1' : nf_ref ≤ nf' := by omega
    have hn63 : nf - nf_ref ≤ 63 := by omega
    rw [acs_survey_interference_factor_eval _ _ hn1 hn63,
        acs_survey_interference_factor_eval _ _ hn1' hn3]
    dsimp only
    have hnum : busy - tx ≠ 0 := by omega
    have hden : time - tx ≠ 0 := by omega
    rw [if_neg hnum, if_neg hden, if_neg hnum, if_neg hden, EReal.coe_lt_coe_iff]
    have hnpos : (0 : ℝ) < ((busy - tx : ℕ) : ℝ) := by
      exact_mod_cast Nat.pos_of_ne_zero hnum
    have hdpos : (0 : ℝ) < ((time - tx : ℕ) : ℝ) := by
      exact_mod_cast Nat.pos_of_ne_zero hden
    apply Real.logb_lt_logb (by norm_num)
    · exact mul_pos (div_pos hnpos hdpos) (by positivity)
    · exact mul_lt_mul_of_pos_left
        (pow_lt_pow_right₀ (by norm_num) (by omega)) (div_pos hnpos hdpos)

/-- Witness for the amended claim C6: both strict inequalities at small
concrete inputs. -/
theorem acs_survey_interference_factor_strict_mono_witness :
    ((0 : ℕ) ≤ 0 ∧ (0 : ℕ) < 1 ∧ (1 : ℕ) ≤ 2 ∧ (-95 : ℤ) ≤ -95
      ∧ (-95 : ℤ) - (-95) ≤ 63 ∧ (0 : ℕ) < 1 ∧ (1 : ℕ) ≤ 2
      ∧ (-95 : ℤ) < -94 ∧ (-94 : ℤ) - (-95) ≤ 63)
    ∧ acs_survey_interference_factor ⟨2, 0, 0, -95⟩ (-95) <
        acs_survey_interference_factor ⟨2, 1, 0, -95⟩ (-95)
    ∧ acs_survey_interference_factor ⟨2, 1, 0, -95⟩ (-95) <
        acs_survey_interference_factor ⟨2, 1, 0, -94⟩ (-95) :=
  ⟨⟨by norm_num, by norm_num, by norm_num, by norm_num, by norm_num, by norm_num,
     by norm_num, by norm_num, by norm_num⟩,
   acs_survey_interference_factor_strict_mono.1 2 0 1 0 (-95) (-95)
     (by norm_num) (by norm_num) (by norm_num) (by norm_num) (by norm_num),
   acs_survey_interference_factor_strict_mono.2 2 1 0 (-95) (-94) (-95)
     (by norm_num) (by norm_num) (by norm_num) (by norm_num) (by norm_num)⟩

end ClaimC6

section ClaimC2

/-- The usable channels in iteration order, each with its aggregate factor
computed by `acs_chan_interference_factor` — exactly the candidates and
scores the selector loop sees. -/
noncomputable def usableUpdated (iface : HostapdIface) : List ChannelData :=
  (iface.channels.filter (fun ch => acs_usable_chan ch)).map
    (acs_chan_interference_factor iface.lowest_nf)

/-- The selector's result equals a left fold of the running-ideal update
over the updated usable channels. -/
lemma acs_find_ideal_chan_loop_eq (nf : ℤ) :
    ∀ (l : List ChannelData) (acc : Option ChannelData),
      (acs_find_ideal_chan_loop nf l acc).2 =
        ((l.filter (fun ch => acs_usable_chan ch)).map
          (acs_chan_interference_factor nf)).foldl pickBetter acc := by
  intro l
  induction l with
  | nil => intro acc; rfl
  | cons ch rest ih =>
      intro acc
      by_cases h : acs_usable_chan ch = true
      · rw [List.filter_cons_of_pos (by simpa using h), List.map_cons, List.foldl_cons]
        simp only [acs_find_ideal_chan_loop, h, if_true]
        exact ih _
      · rw [List.filter_cons_of_neg (by simpa using h)]
        simp only [acs_find_ideal_chan_loop, h, if_false]
        exact ih _

/-- Folding the running-ideal update from `some a` yields the first channel
attaining the minimum `survey_interference_factor` of `a :: l`. -/
lemma foldl_pickBetter_first_min (l : List ChannelData) :
    ∀ (a : ChannelData),
      ∃ (i : ℕ) (hi : i < (a :: l).length),
        l.foldl pickBetter (some a) = some ((a :: l).get ⟨i, hi⟩)
        ∧ (∀ c ∈ a :: l,
            ((a :: l).get ⟨i, hi⟩).survey_interference_factor ≤
              c.survey_interference_factor)
        ∧ (∀ (j : ℕ) (hj : j < i),
            ((a :: l).get ⟨i, hi⟩).survey_interference_factor <
              ((a :: l).get ⟨j, Nat.lt_trans hj hi⟩).survey_interference_factor) := by
  induction l with
  | nil =>
      intro a
      refine ⟨0, by simp, rfl, ?_, ?_⟩
      · intro c hc
        rcases List.mem_cons.mp hc with rfl | hc'
        · exact le_refl _
        · exact absurd hc' (List.not_mem_nil c)
      · intro j hj
        exact absurd hj (Nat.not_lt_zero j)
  | cons x xs ih =>
      intro a
      rw [List.foldl_cons]
      by_cases hlt : x.survey_interference_factor < a.survey_interference_factor
      · have hpb : pickBetter (some a) x = some x := by simp [pickBetter, hlt]
        rw [hpb]
        obtain ⟨i, hi, heq, hall, hbef⟩ := ih x
        refine ⟨i + 1, by simpa using Nat.succ_lt_succ hi, heq, ?_, ?_⟩
        · intro c hc
          rcases List.mem_cons.mp hc with rfl | hc'
          · exact le_trans (hall x (List.mem_cons_self x xs)) (le_of_lt hlt)
          · exact hall c hc'
        · intro j hj
          cases j with
          | zero => exact lt_of_le_of_lt (hall x (List.mem_cons_self x xs)) hlt
          | succ j => exact hbef j (Nat.lt_of_succ_lt_succ hj)
      · have hpb : pickBetter (some a) x = some a := by simp [pickBetter, hlt]
        rw [hpb]
        obtain ⟨i, hi, heq, hall, hbef⟩ := ih a
        cases i with
        | zero =>
            refine ⟨0, by simp, heq, ?_, ?_⟩
            · intro c hc
              rcases List.mem_cons.mp hc with rfl | hc'
              · exact hall c (List.mem_cons_self c xs)
              · rcases List.mem_cons.mp hc' with rfl | hc''
                · exact le_of_not_lt hlt
                · exact hall c (List.mem_cons_of_mem a hc'')
            · intro j hj
              exact absurd hj (Nat.not_lt_zero j)
        | succ k =>
            have hk2 : k + 2 < (a :: x :: xs).length := by
              simp only [List.length_cons] at hi ⊢
              omega
            refine ⟨k + 2, hk2, heq, ?_, ?_⟩
            · intro c hc
              rcases List.mem_cons.mp hc with rfl | hc'
              · exact hall c (List.mem_cons_self c xs)
              · rcases List.mem_cons.mp hc' with rfl | hc''
                · exact le_of_lt
                    (lt_of_lt_of_le (hbef 0 (Nat.succ_pos k)) (le_of_not_lt hlt))
                · exact hall c (List.mem_cons_of_mem a hc'')
            · intro j hj
              cases j with
              | zero => exact hbef 0 (Nat.succ_pos k)
              | succ j =>
                  cases j with
                  | zero =>
                      exact lt_of_lt_of_le (hbef 0 (Nat.succ_pos k)) (le_of_not_lt hlt)
                  | succ j =>
                      exact hbef (j + 1) (by omega)

/-- Claim C2: for every interface state with at least one usable channel,
`acs_find_ideal_chan` returns the first usable channel (in iteration order)
whose aggregate `survey_interference_factor` is minimal among all usable
channels — no usable channel, earlier or later, has a strictly smaller
aggregate score, ties going to the first seen — and it returns `none` when
no usable channel exists. -/
theorem acs_find_ideal_chan_first_argmin (iface : HostapdIface) :
    ((∀ ch ∈ iface.channels, acs_usable_chan ch = false) →
      (acs_find_ideal_chan iface).2 = none)
    ∧ ((∃ ch ∈ iface.channels, acs_usable_chan ch = true) →
      ∃ (i : ℕ) (hi : i < (usableUpdated iface).length),
        (acs_find_ideal_chan iface).2 = some ((usableUpdated iface).get ⟨i, hi⟩)
        ∧ (∀ c ∈ usableUpdated iface,
            ((usableUpdated iface).get ⟨i, hi⟩).survey_interference_factor ≤
              c.survey_interference_factor)
        ∧ (∀ (j : ℕ) (hj : j < i),
            ((usableUpdated iface).get ⟨i, hi⟩).survey_interference_factor <
              ((usableUpdated iface).get
                ⟨j, Nat.lt_trans hj hi⟩).survey_interference_factor)) := by
  have hfold : (acs_find_ideal_chan iface).2 =
      (usableUpdated iface).foldl pickBetter none := by
    unfold acs_find_ideal_chan usableUpdated
    dsimp only
    exact acs_find_ideal_chan_loop_eq iface.lowest_nf iface.channels none
  constructor
  · intro hnone
    have hfil : iface.channels.filter (fun ch => acs_usable_chan ch) = [] := by
      rw [List.filter_eq_nil_iff]
      intro ch hch
      simp [hnone ch hch]
    rw [hfold]
    unfold usableUpdated
    rw [hfil]
    rfl
  · intro hsome
    obtain ⟨ch, hch, hus⟩ := hsome
    have hne : usableUpdated iface ≠ [] := by
      unfold usableUpdated
      simp only [ne_eq, List.map_eq_nil_iff, List.filter_eq_nil_iff, not_forall]
      exact ⟨ch, hch, by simp [hus]⟩
    rw [hfold]
    rcases hU : usableUpdated iface with _ | ⟨c, L⟩
    · exact absurd hU hne
    · have hstep : (c :: L).foldl pickBetter none = L.foldl pickBetter (some c) := rfl
      rw [hstep]
      exact foldl_pickBetter_first_min L c

end ClaimC2

section EvalLemmas

/-- `log2` of an exact power of two. -/
lemma logb_two_pow_nat (n : ℕ) : Real.logb 2 ((2 : ℝ) ^ n) = n := by
  rw [Real.logb_pow, Real.logb_self_eq_one (by norm_num), mul_one]

/-- Dividing a finite `EReal` by a count. -/
lemma erealDiv_coe (x : ℝ) (n : ℕ) :
    erealDiv ((x : ℝ) : EReal) n = ((x / (n : ℝ) : ℝ) : EReal) := by
  unfold erealDiv
  rw [if_neg (EReal.coe_ne_bot x), if_neg (EReal.coe_ne_top x), EReal.toReal_coe]

/-- The survey used by the concrete run scenarios: factor `2` against a
reference noise floor of `-95`. -/
def survA : Survey := ⟨1, 1, 0, -93⟩

/-- A second survey: factor `3` against a reference noise floor of `-95`. -/
def survB : Survey := ⟨1, 1, 0, -92⟩

/-- `survA` scores `log2(1/1 * 2^2) = 2`. -/
lemma factor_survA : acs_survey_interference_factor survA (-95) = (((2 : ℝ)) : EReal) := by
  rw [acs_survey_interference_factor_eval survA (-95) (by norm_num [survA])
    (by norm_num [survA])]
  norm_num [survA]
  rw [show Int.toNat 2 = 2 from rfl, logb_two_pow_nat]
  norm_num

/-- `survB` scores `log2(1/1 * 2^3) = 3`. -/
lemma factor_survB : acs_survey_interference_factor survB (-95) = (((3 : ℝ)) : EReal) := by
  rw [acs_survey_interference_factor_eval survB (-95) (by norm_num [survB])
    (by norm_num [survB])]
  norm_num [survB]
  rw [show Int.toNat 3 = 3 from rfl, logb_two_pow_nat]
  norm_num

end EvalLemmas

section ClaimC1

/-- Channel 1, fresh. -/
def runChan1 : ChannelData := ⟨1, 2412, 0, [], 0, 0, 0⟩

/-- Channel 6, fresh. -/
def runChan6 : ChannelData := ⟨6, 2437, 0, [], 0, 0, 0⟩

/-- A fresh two-channel interface. -/
def runIface : HostapdIface :=
  { channels := [runChan1, runChan6]
    lowest_nf := -95
    chans_surveyed := 0
    off_channel_freq_idx := 0
    acs_num_completed_surveys := 0
    conf_channel := 0
    acs_num_req_surveys := 1
    acs_roc_duration_ms := 100
    drv_flags := 1
    scan_cb_set := true }

/-- The driver-reported survey data, identical in both invocations: one
factor-2 survey on channel 1, a factor-2 and a factor-3 survey on
channel 6 (averages 2 and 2.5). -/
def runData : List (List Survey) := [[survA], [survA, survB]]

/-- Channel 1 after the deposit. -/
def chA : ChannelData := ⟨1, 2412, 0, [survA], 1, -93, 0⟩

/-- Channel 6 after the deposit. -/
def chB : ChannelData := ⟨6, 2437, 0, [survA, survB], 2, -93, 0⟩

/-- Cleanup of the fresh interface is the identity. -/
lemma cleanup_runIface : acs_cleanup runIface = runIface := by
  simp [acs_cleanup, acs_cleanup_chan, acs_clean_chan_surveys, runIface, runChan1,
    runChan6]

/-- The deposit fills the two survey lists. -/
lemma install_runData :
    installSurveys runData runIface.channels = [chA, chB] := by
  norm_num [installSurveys, runData, runIface, runChan1, runChan6, chA, chB, minNfOf,
    survA, survB]

/-- First-run aggregate for channel 1: `(0 + 2) / 1 = 2`. -/
lemma upd_chA :
    acs_chan_interference_factor (-95) chA =
      ⟨1, 2412, 0, [survA], 1, -93, ((2 : ℝ) : EReal)⟩ := by
  unfold acs_chan_interference_factor
  rw [if_neg (by simp [chA, HOSTAPD_CHAN_DISABLED])]
  simp only [chA, List.foldl_cons, List.foldl_nil, factor_survA, zero_add, erealDiv_coe]
  norm_num

/-- First-run aggregate for channel 6: `(0 + 2 + 3) / 2 = 5/2`. -/
lemma upd_chB :
    acs_chan_interference_factor (-95) chB =
      ⟨6, 2437, 0, [survA, survB], 2, -93, ((5 / 2 : ℝ) : EReal)⟩ := by
  unfold acs_chan_interference_factor
  rw [if_neg (by simp [chB, HOSTAPD_CHAN_DISABLED])]
  simp only [chB, List.foldl_cons, List.foldl_nil, factor_survA, factor_survB, zero_add,
    ← EReal.coe_add, erealDiv_coe]
  norm_num

/-- The interface state after the first ACS decision: `conf.channel = 1`,
survey data cleaned, but the two stale aggregate factors 2 and 5/2 left in
place by `acs_cleanup`. -/
noncomputable def iface1 : HostapdIface :=
  { channels := [⟨1, 2412, 0, [], 0, 0, ((2 : ℝ) : EReal)⟩,
                 ⟨6, 2437, 0, [], 0, 0, ((5 / 2 : ℝ) : EReal)⟩]
    lowest_nf := -95
    chans_surveyed := 0
    off_channel_freq_idx := 0
    acs_num_completed_surveys := 0
    conf_channel := 1
    acs_num_req_surveys := 1
    acs_roc_duration_ms := 100
    drv_flags := 1
    scan_cb_set := true }

/-- First run: channel 1 (score 2) beats channel 6 (score 2.5). -/
lemma run_once_first : acs_run_once runData runIface = iface1 := by
  unfold acs_run_once
  dsimp only
  rw [cleanup_runIface, install_runData]
  unfold acs_find_ideal_chan
  dsimp only [runIface]
  simp only [acs_find_ideal_chan_loop,
    show acs_usable_chan chA = true by norm_num [acs_usable_chan, chA,
      HOSTAPD_CHAN_DISABLED],
    show acs_usable_chan chB = true by norm_num [acs_usable_chan, chB,
      HOSTAPD_CHAN_DISABLED],
    if_true, upd_chA, upd_chB, pickBetter]
  rw [if_neg (by
    rw [EReal.coe_lt_coe_iff]
    norm_num)]
  dsimp only
  simp [acs_cleanup, acs_cleanup_chan, acs_clean_chan_surveys, iface1]

/-- Cleanup of the post-first-run interface is the identity (the stale
factors survive). -/
lemma cleanup_iface1 : acs_cleanup iface1 = iface1 := by
  simp [acs_cleanup, acs_cleanup_chan, acs_clean_chan_surveys, iface1]

/-- The second deposit of the same data, on top of the stale factors. -/
lemma install_runData2 :
    installSurveys runData iface1.channels =
      [⟨1, 2412, 0, [survA], 1, -93, ((2 : ℝ) : EReal)⟩,
       ⟨6, 2437, 0, [survA, survB], 2, -93, ((5 / 2 : ℝ) : EReal)⟩] := by
  norm_num [installSurveys, runData, iface1, minNfOf, survA, survB]

/-- Second-run aggregate for channel 1: the stale accumulator is not reset,
`(2 + 2) / 1 = 4`. -/
lemma upd_chA2 :
    acs_chan_interference_factor (-95) ⟨1, 2412, 0, [survA], 1, -93, ((2 : ℝ) : EReal)⟩ =
      ⟨1, 2412, 0, [survA], 1, -93, ((4 : ℝ) : EReal)⟩ := by
  unfold acs_chan_interference_factor
  rw [if_neg (by simp [HOSTAPD_CHAN_DISABLED])]
  simp only [List.foldl_cons, List.foldl_nil, factor_survA, ← EReal.coe_add, erealDiv_coe]
  norm_num

/-- Second-run aggregate for channel 6: `(5/2 + 2 + 3) / 2 = 15/4`. -/
lemma upd_chB2 :
    acs_chan_interference_factor (-95)
        ⟨6, 2437, 0, [survA, survB], 2, -93, ((5 / 2 : ℝ) : EReal)⟩ =
      ⟨6, 2437, 0, [survA, survB], 2, -93, ((15 / 4 : ℝ) : EReal)⟩ := by
  unfold acs_chan_interference_factor
  rw [if_neg (by simp [HOSTAPD_CHAN_DISABLED])]
  simp only [List.foldl_cons, List.foldl_nil, factor_survA, factor_survB,
    ← EReal.coe_add, erealDiv_coe]
  norm_num

/-- Second run: channel 6 (score 15/4) now beats channel 1 (score 4). -/
lemma run_once_second : (acs_run_once runData iface1).conf_channel = 6 := by
  unfold acs_run_once
  dsimp only
  rw [cleanup_iface1, install_runData2]
  unfold acs_find_ideal_chan
  dsimp only [iface1]
  simp only [acs_find_ideal_chan_loop,
    show acs_usable_chan ⟨1, 2412, 0, [survA], 1, -93, ((2 : ℝ) : EReal)⟩ = true by
      norm_num [acs_usable_chan, HOSTAPD_CHAN_DISABLED],
    show acs_usable_chan ⟨6, 2437, 0, [survA, survB], 2, -93, ((5 / 2 : ℝ) : EReal)⟩
        = true by
      norm_num [acs_usable_chan, HOSTAPD_CHAN_DISABLED],
    if_true, upd_chA2, upd_chB2, pickBetter]
  rw [if_pos (by
    rw [EReal.coe_lt_coe_iff]
    norm_num)]
  dsimp only
  simp [acs_cleanup]

/-- Claim C1 failing input, proved against the code: on the same interface
with the driver reporting identical survey data, the first ACS decision
writes channel 1 but the immediately following second decision writes
channel 6 — the stale `survey_interference_factor` accumulator (never reset
by `acs_cleanup` and summed onto by `acs_chan_interference_factor`) flips
the comparison from `2 < 5/2` to `15/4 < 4`. -/
theorem acs_run_twice_changes_decision :
    (acs_run_once runData runIface).conf_channel = 1
    ∧ (acs_run_once runData (acs_run_once runData runIface)).conf_channel = 6 := by
  constructor
  · rw [run_once_first]
    rfl
  · rw [run_once_first]
    exact run_once_second

end ClaimC1

section ClaimC7

/-- The study loop only ever stops at (and so only ever requests) a
non-DISABLED channel. -/
lemma acs_study_next_freq_go_not_disabled (roc : ℕ → ℕ → Int) (dur : ℕ) :
    ∀ (l : List ChannelData) (i k : ℕ) (ch : ChannelData) (err : Int),
      acs_study_next_freq_go roc dur i l = some (k, ch, err) →
      ch.flag &&& HOSTAPD_CHAN_DISABLED = 0 := by
  intro l
  induction l with
  | nil => intro i k ch err h; exact Option.noConfusion h
  | cons ch' rest ih =>
      intro i k ch err h
      simp only [acs_study_next_freq_go] at h
      by_cases hd : ch'.flag &&& HOSTAPD_CHAN_DISABLED ≠ 0
      · rw [if_pos hd] at h
        exact ih (i + 1) k ch err h
      · rw [if_neg hd] at h
        simp only [Option.some.injEq, Prod.mk.injEq] at h
        obtain ⟨-, h2, -⟩ := h
        rw [← h2]
        exact not_not.mp hd

/-- Every remain-on-channel request issued by `acs_study_next_freq` targets
a non-DISABLED channel. -/
lemma acs_study_next_freq_log (drv : AcsDriver) (iface : HostapdIface) :
    ∀ req ∈ (acs_study_next_freq drv iface).2.2,
      req.chan.flag &&& HOSTAPD_CHAN_DISABLED = 0 := by
  intro req hreq
  unfold acs_study_next_freq at hreq
  by_cases hgt : iface.off_channel_freq_idx > iface.channels.length
  · rw [if_pos hgt] at hreq
    simp at hreq
  · rw [if_neg hgt] at hreq
    rcases hgo : acs_study_next_freq_go drv.remain_on_channel iface.acs_roc_duration_ms
        iface.off_channel_freq_idx (iface.channels.drop iface.off_channel_freq_idx)
      with _ | ⟨k, ch, err⟩
    · rw [hgo] at hreq
      dsimp only at hreq
      split_ifs at hreq <;> simp at hreq
    · rw [hgo] at hreq
      dsimp only at hreq
      have hnd := acs_study_next_freq_go_not_disabled drv.remain_on_channel
        iface.acs_roc_duration_ms _ _ _ _ _ hgo
      split_ifs at hreq <;>
        (simp only [List.mem_singleton] at hreq; rw [hreq]; exact hnd)

/-- Every request issued while handling `acs_study_complete` targets a
non-DISABLED channel. -/
lemma acs_study_complete_log (drv : AcsDriver) (iface : HostapdIface) :
    ∀ req ∈ (acs_study_complete drv iface).log,
      req.chan.flag &&& HOSTAPD_CHAN_DISABLED = 0 := by
  intro req hreq
  unfold acs_study_complete at hreq
  dsimp only at hreq
  split at hreq
  · split at hreq
    · exact acs_study_next_freq_log drv _ req hreq
    · exact acs_study_next_freq_log drv _ req hreq
  · split at hreq
    · simp at hreq
    · split at hreq
      · simp at hreq
      · split at hreq <;> simp at hreq

/-- Every request issued while handling `acs_roc_next` targets a
non-DISABLED channel. -/
lemma acs_roc_next_log (drv : AcsDriver) (iface : HostapdIface) (freq : ℕ) :
    ∀ req ∈ (acs_roc_next drv iface freq).log,
      req.chan.flag &&& HOSTAPD_CHAN_DISABLED = 0 := by
  intro req hreq
  unfold acs_roc_next at hreq
  dsimp only at hreq
  split at hreq
  · simp at hreq
  · split at hreq
    · rcases List.mem_append.mp hreq with h | h
      · exact acs_study_next_freq_log drv _ req h
      · exact acs_study_complete_log drv _ req h
    · exact acs_study_next_freq_log drv _ req hreq
    · exact acs_study_next_freq_log drv _ req hreq

/-- Every request issued while handling the initial-scan completion targets
a non-DISABLED channel. -/
lemma acs_init_scan_complete_log (drv : AcsDriver) (iface : HostapdIface) :
    ∀ req ∈ (acs_init_scan_complete drv iface).log,
      req.chan.flag &&& HOSTAPD_CHAN_DISABLED = 0 := by
  intro req hreq
  unfold acs_init_scan_complete at hreq
  dsimp only at hreq
  split at hreq
  · exact acs_study_next_freq_log drv _ req hreq
  · exact acs_study_next_freq_log drv _ req hreq

/-- Every request issued by any single controller transition targets a
non-DISABLED channel. -/
lemma acsStep_log (drv : AcsDriver) (iface : HostapdIface) (e : AcsEvent) :
    ∀ req ∈ (acsStep drv iface e).log,
      req.chan.flag &&& HOSTAPD_CHAN_DISABLED = 0 := by
  intro req hreq
  cases e with
  | initCall => simp [acsStep] at hreq
  | scanComplete =>
      simp only [acsStep] at hreq
      split at hreq
      · exact acs_init_scan_complete_log drv iface req hreq
      · simp at hreq
  | rocStarted freq dur status =>
      simp only [acsStep, hostapd_notify_acs_roc] at hreq
      split at hreq <;> simp at hreq
  | rocCancelled freq dur status =>
      simp only [acsStep, hostapd_notify_acs_roc_cancel] at hreq
      split at hreq
      · simp at hreq
      · exact acs_roc_next_log drv iface freq req hreq

/-- Every request issued over any event sequence targets a non-DISABLED
channel. -/
lemma acsRun_log (drv : AcsDriver) :
    ∀ (events : List AcsEvent) (iface : HostapdIface),
      ∀ req ∈ (acsRun drv iface events).2,
        req.chan.flag &&& HOSTAPD_CHAN_DISABLED = 0 := by
  intro events
  induction events with
  | nil => intro iface req h; simp [acsRun] at h
  | cons e es ih =>
      intro iface req h
      simp only [acsRun] at h
      rcases List.mem_append.mp h with h' | h'
      · exact acsStep_log drv iface e req h'
      · exact ih _ req h'

/-- The selector's fold returns its accumulator or a list element. -/
lemma foldl_pickBetter_mem :
    ∀ (l : List ChannelData) (acc : Option ChannelData) (c : ChannelData),
      l.foldl pickBetter acc = some c → acc = some c ∨ c ∈ l := by
  intro l
  induction l with
  | nil => intro acc c h; exact Or.inl h
  | cons x xs ih =>
      intro acc c h
      rw [List.foldl_cons] at h
      rcases ih (pickBetter acc x) c h with h' | h'
      · rcases acc with _ | a
        · simp only [pickBetter, Option.some.injEq] at h'
          exact Or.inr (h' ▸ List.mem_cons_self x xs)
        · simp only [pickBetter] at h'
          split_ifs at h'
          · simp only [Option.some.injEq] at h'
            exact Or.inr (h' ▸ List.mem_cons_self x xs)
          · simp only [Option.some.injEq] at h'
            exact Or.inl (by rw [h'])
      · exact Or.inr (List.mem_cons_of_mem x h')

/-- Updating a channel's aggregate factor leaves its flags alone. -/
lemma acs_chan_interference_factor_flag (nf : ℤ) (ch : ChannelData) :
    (acs_chan_interference_factor nf ch).flag = ch.flag := by
  unfold acs_chan_interference_factor
  split <;> rfl

/-- A usable channel is not DISABLED. -/
lemma acs_usable_chan_not_disabled (ch : ChannelData)
    (h : acs_usable_chan ch = true) :
    ch.flag &&& HOSTAPD_CHAN_DISABLED = 0 := by
  unfold acs_usable_chan at h
  split_ifs at h with h1 h2 h3
  exact not_not.mp h3

/-- The selector result, decomposed as a fold over the updated usable
channels. -/
lemma acs_find_ideal_chan_eq_foldl (iface : HostapdIface) :
    (acs_find_ideal_chan iface).2 = (usableUpdated iface).foldl pickBetter none := by
  unfold acs_find_ideal_chan usableUpdated
  dsimp only
  exact acs_find_ideal_chan_loop_eq iface.lowest_nf iface.channels none

/-- The channel returned by the selector is never DISABLED. -/
lemma acs_find_ideal_chan_not_disabled (iface : HostapdIface) (c : ChannelData)
    (h : (acs_find_ideal_chan iface).2 = some c) :
    c.flag &&& HOSTAPD_CHAN_DISABLED = 0 := by
  rw [acs_find_ideal_chan_eq_foldl] at h
  rcases foldl_pickBetter_mem _ _ _ h with h' | h'
  · exact Option.noConfusion h'
  · unfold usableUpdated at h'
    rcases List.mem_map.mp h' with ⟨orig, horig, rfl⟩
    rw [acs_chan_interference_factor_flag]
    exact acs_usable_chan_not_disabled orig (by
      have := List.of_mem_filter horig
      simpa using this)

/-- Claim C7: in every execution of the controller — for every channel list,
driver behaviour and event sequence — a DISABLED channel is never passed to
the remain-on-channel driver request, and the selector never returns a
DISABLED channel. -/
theorem acs_disabled_never_requested_nor_selected :
    (∀ (drv : AcsDriver) (iface : HostapdIface) (events : List AcsEvent),
      ∀ req ∈ (acsRun drv iface events).2,
        req.chan.flag &&& HOSTAPD_CHAN_DISABLED = 0)
    ∧ (∀ (iface : HostapdIface) (c : ChannelData),
        (acs_find_ideal_chan iface).2 = some c →
        c.flag &&& HOSTAPD_CHAN_DISABLED = 0) :=
  ⟨fun drv iface events => acsRun_log drv events iface,
   fun iface c h => acs_find_ideal_chan_not_disabled iface c h⟩

end ClaimC7

section Witnesses

/-- A surveyed, enabled single-channel record for witnesses. -/
def sampleSurveyedChan : ChannelData := ⟨1, 2412, 0, [survA], 1, -93, 0⟩

/-- An interface whose only channel is usable. -/
def sampleSurveyedIface : HostapdIface :=
  { sampleIface with channels := [sampleSurveyedChan] }

/-- Witness for claim C2 on a single-channel surveyed interface. -/
theorem acs_find_ideal_chan_first_argmin_witness :
    (∃ ch ∈ sampleSurveyedIface.channels, acs_usable_chan ch = true)
    ∧ (∃ (i : ℕ) (hi : i < (usableUpdated sampleSurveyedIface).length),
        (acs_find_ideal_chan sampleSurveyedIface).2 =
          some ((usableUpdated sampleSurveyedIface).get ⟨i, hi⟩)
        ∧ (∀ c ∈ usableUpdated sampleSurveyedIface,
            ((usableUpdated sampleSurveyedIface).get
                ⟨i, hi⟩).survey_interference_factor ≤ c.survey_interference_factor)
        ∧ (∀ (j : ℕ) (hj : j < i),
            ((usableUpdated sampleSurveyedIface).get
                ⟨i, hi⟩).survey_interference_factor <
              ((usableUpdated sampleSurveyedIface).get
                ⟨j, Nat.lt_trans hj hi⟩).survey_interference_factor)) := by
  have hyp : ∃ ch ∈ sampleSurveyedIface.channels, acs_usable_chan ch = true :=
    ⟨sampleSurveyedChan, by simp [sampleSurveyedIface],
      by norm_num [acs_usable_chan, sampleSurveyedChan, HOSTAPD_CHAN_DISABLED]⟩
  exact ⟨hyp, (acs_find_ideal_chan_first_argmin sampleSurveyedIface).2 hyp⟩

/-- The selector on the surveyed two-channel interface picks channel 1. -/
lemma find_ideal_sample :
    (acs_find_ideal_chan { runIface with channels := [chA, chB] }).2 =
      some ⟨1, 2412, 0, [survA], 1, -93, ((2 : ℝ) : EReal)⟩ := by
  unfold acs_find_ideal_chan
  dsimp only [runIface]
  simp only [acs_find_ideal_chan_loop,
    show acs_usable_chan chA = true by norm_num [acs_usable_chan, chA,
      HOSTAPD_CHAN_DISABLED],
    show acs_usable_chan chB = true by norm_num [acs_usable_chan, chB,
      HOSTAPD_CHAN_DISABLED],
    if_true, upd_chA, upd_chB, pickBetter]
  rw [if_neg (by
    rw [EReal.coe_lt_coe_iff]
    norm_num)]

/-- Witness for claim C7: a concrete issued request and a concrete selected
channel, both non-DISABLED. -/
theorem acs_disabled_never_requested_nor_selected_witness :
    ((⟨sampleChan1, 100⟩ : RocRequest) ∈
        (acsRun sampleDrv sampleIface [AcsEvent.scanComplete]).2
      ∧ sampleChan1.flag &&& HOSTAPD_CHAN_DISABLED = 0)
    ∧ ((acs_find_ideal_chan { runIface with channels := [chA, chB] }).2 =
        some ⟨1, 2412, 0, [survA], 1, -93, ((2 : ℝ) : EReal)⟩
      ∧ (⟨1, 2412, 0, [survA], 1, -93, ((2 : ℝ) : EReal)⟩ : ChannelData).flag &&&
          HOSTAPD_CHAN_DISABLED = 0) := by
  have hmem : (⟨sampleChan1, 100⟩ : RocRequest) ∈
      (acsRun sampleDrv sampleIface [AcsEvent.scanComplete]).2 := by
    simp [acsRun, acsStep, acs_init_scan_complete, acs_cleanup, acs_cleanup_chan,
      acs_clean_chan_surveys, acs_study_next_freq, acs_study_next_freq_go,
      sampleIface, sampleChan1, sampleDrv, HOSTAPD_CHAN_DISABLED]
  exact ⟨⟨hmem, acs_disabled_never_requested_nor_selected.1 sampleDrv sampleIface
      [AcsEvent.scanComplete] _ hmem⟩,
    ⟨find_ideal_sample,
      acs_disabled_never_requested_nor_selected.2 _ _ find_ideal_sample⟩⟩

end Witnesses

end Acs
